import Mathlib

/- Shallow embedding of the MPN search sidecar's synchronization and indexing
engine (database/setup.js, routes/sync.js, routes/search.js,
services/shopifyGraphQL.js).  The SQLite tables become Lean lists of rows,
JavaScript strings become Lean strings, JS `null`/`undefined` become
`Option.none`, timestamps become abstract `Nat` clock values, and the JS
truthiness tests the code relies on are embedded explicitly.  Fallible
upstream calls (page fetches, per-record database writes) are modelled with
`Except`/oracles so that the code's try/catch control flow can be stated. -/

namespace MpnSearch

/-- JS truthiness of a nullable string value: `null`/`undefined` (here `none`)
and the empty string are falsy, every other string is truthy. -/
def jsTruthy : Option String → Bool
  | none => false
  | some s => decide (s ≠ "")

/-- JS `a || b` on nullable strings, as used for fallback chains such as
`v.image?.url || v.product.featuredImage?.url || null`. -/
def jsOrStr (a b : Option String) : Option String :=
  if jsTruthy a then a else if jsTruthy b then b else none

/-- The character class of `replace(/[^A-Z0-9]/gi, '')`: a character survives
the strip exactly when it is an ASCII digit or an ASCII letter of either case. -/
def isAsciiAlnum (c : Char) : Bool :=
  (48 ≤ c.toNat && c.toNat ≤ 57) || (65 ≤ c.toNat && c.toNat ≤ 90) ||
    (97 ≤ c.toNat && c.toNat ≤ 122)

/-- JS `toUpperCase` on the characters reachable after the strip (ASCII):
lowercase letters move down by 32 code points, everything else is fixed. -/
def jsUpper (c : Char) : Char :=
  if 97 ≤ c.toNat && c.toNat ≤ 122 then Char.ofNat (c.toNat - 32) else c

/-- The string body of `normalizeMpn`: `mpn.replace(/[^A-Z0-9]/gi, '').toUpperCase()`. -/
def normalizeStr (s : String) : String :=
  String.mk ((s.toList.filter isAsciiAlnum).map jsUpper)

/-- Embedding of `normalizeMpn` (database/setup.js): `if (!mpn) return null;`
then strip and upcase.  Falsy input (`null` or `""`) yields `none`. -/
def normalizeMpn : Option String → Option String
  | none => none
  | some s => if s = "" then none else some (normalizeStr s)

/-- Input shape of `upsertVariant`: the destructured `variant` argument. -/
structure Variant where
  variant_id : String
  product_id : String
  product_handle : String
  product_title : String
  variant_title : Option String
  image_url : Option String
  mpn : Option String
  sku : Option String
  price : Option String
  deriving DecidableEq, Repr

/-- One row of the `variant_lookups` table. -/
structure Row where
  id : Nat
  variant_id : String
  product_id : String
  product_handle : String
  product_title : String
  variant_title : Option String
  image_url : Option String
  mpn : Option String
  mpn_normalized : Option String
  sku : Option String
  price : Option String
  updated_at : Nat
  created_at : Nat
  deriving DecidableEq, Repr

/-- The `variant_lookups` table plus its AUTOINCREMENT counter. -/
structure Store where
  rows : List Row
  nextId : Nat
  deriving DecidableEq, Repr

def emptyStore : Store := { rows := [], nextId := 1 }

/-- Effect of the `ON CONFLICT(variant_id) DO UPDATE SET ...` arm of
`upsertVariant`: every column except `id`, `variant_id` and `created_at`
is overwritten from the excluded row, and `updated_at` is refreshed. -/
def overwriteRow (r : Row) (v : Variant) (now : Nat) : Row :=
  { r with
    product_id := v.product_id
    product_handle := v.product_handle
    product_title := v.product_title
    variant_title := v.variant_title
    image_url := v.image_url
    mpn := v.mpn
    mpn_normalized := normalizeMpn v.mpn
    sku := v.sku
    price := v.price
    updated_at := now }

/-- Effect of the `INSERT` arm of `upsertVariant`: a fresh row with
`mpn_normalized` computed from the raw mpn and both timestamps set. -/
def newRow (fresh : Nat) (v : Variant) (now : Nat) : Row :=
  { id := fresh
    variant_id := v.variant_id
    product_id := v.product_id
    product_handle := v.product_handle
    product_title := v.product_title
    variant_title := v.variant_title
    image_url := v.image_url
    mpn := v.mpn
    mpn_normalized := normalizeMpn v.mpn
    sku := v.sku
    price := v.price
    updated_at := now
    created_at := now }

/-- Row-list effect of the conflict arm: overwrite every row whose
`variant_id` collides (the UNIQUE constraint keeps that to one row). -/
def applyOverwrite (v : Variant) (now : Nat) (rows : List Row) : List Row :=
  rows.map fun r => if r.variant_id = v.variant_id then overwriteRow r v now else r

/-- Embedding of `upsertVariant` (database/setup.js): recompute
`mpn_normalized` from the raw mpn, then INSERT or, on a `variant_id`
conflict, fully overwrite the existing row. -/
def upsertVariant (st : Store) (v : Variant) (now : Nat) : Store :=
  if st.rows.any (fun r => decide (r.variant_id = v.variant_id)) then
    { st with rows := applyOverwrite v now st.rows }
  else
    { rows := st.rows ++ [newRow st.nextId v now], nextId := st.nextId + 1 }

/-- Embedding of `bulkUpsertVariants`: upsert each variant whose raw `mpn`
is truthy and count it as indexed, count the rest as skipped. -/
def bulkUpsertVariants : Store → List Variant → Nat → Store × Nat × Nat
  | st, [], _ => (st, 0, 0)
  | st, v :: rest, now =>
    if jsTruthy v.mpn then
      let res := bulkUpsertVariants (upsertVariant st v now) rest now
      (res.1, res.2.1 + 1, res.2.2)
    else
      let res := bulkUpsertVariants st rest now
      (res.1, res.2.1, res.2.2 + 1)

/-- The columns projected by the SELECT of `searchByMpn`. -/
structure SearchRow where
  variant_id : String
  product_id : String
  product_handle : String
  product_title : String
  variant_title : Option String
  image_url : Option String
  mpn : Option String
  sku : Option String
  price : Option String
  deriving DecidableEq, Repr

def projectRow (r : Row) : SearchRow :=
  { variant_id := r.variant_id
    product_id := r.product_id
    product_handle := r.product_handle
    product_title := r.product_title
    variant_title := r.variant_title
    image_url := r.image_url
    mpn := r.mpn
    sku := r.sku
    price := r.price }

/-- Underlying rows selected by `searchByMpn`: guard
`if (!normalized || normalized.length < 2) return []`, then
`WHERE mpn_normalized = ? LIMIT ?` in table order. -/
def matchingRows (st : Store) (searchTerm : String) (limit : Nat) : List Row :=
  match normalizeMpn (some searchTerm) with
  | none => []
  | some normalized =>
    if normalized.length < 2 then []
    else (st.rows.filter (fun r => decide (r.mpn_normalized = some normalized))).take limit

/-- Embedding of `searchByMpn` (database/setup.js): the matching rows under
the SELECT's column projection. -/
def searchByMpn (st : Store) (searchTerm : String) (limit : Nat) : List SearchRow :=
  (matchingRows st searchTerm limit).map projectRow

/-- Embedding of `deleteVariant`: `DELETE FROM variant_lookups WHERE
variant_id = ?`, returning the changed-row count; absent rows are no error. -/
def deleteVariant (st : Store) (variantId : String) : Store × Nat :=
  let remaining := st.rows.filter (fun r => decide (¬ r.variant_id = variantId))
  ({ st with rows := remaining }, st.rows.length - remaining.length)

/-- Embedding of `deleteProductVariants`: `DELETE ... WHERE product_id = ?`. -/
def deleteProductVariants (st : Store) (productId : String) : Store × Nat :=
  let remaining := st.rows.filter (fun r => decide (¬ r.product_id = productId))
  ({ st with rows := remaining }, st.rows.length - remaining.length)

/-- Embedding of `clearIndex`: `DELETE FROM variant_lookups`. -/
def clearIndex (st : Store) : Store × Nat :=
  ({ st with rows := [] }, st.rows.length)

/-- One row of the `sync_status` table. -/
structure SyncJob where
  id : Nat
  shop : String
  sync_type : String
  status : String
  total_variants : Nat
  processed_variants : Nat
  indexed_variants : Nat
  error_message : Option String
  completed_at : Option Nat
  deriving DecidableEq, Repr

/-- Embedding of `createSyncJob`: INSERT a fresh job with status 'running'
and zero counters. -/
def createSyncJob (jobs : List SyncJob) (fresh : Nat) (shop syncType : String) : List SyncJob :=
  jobs ++ [{ id := fresh, shop := shop, sync_type := syncType, status := "running",
             total_variants := 0, processed_variants := 0, indexed_variants := 0,
             error_message := none, completed_at := none }]

/-- Embedding of `updateSyncJob` at its only call shape in `runFullSync`:
UPDATE the `processed_variants` and `indexed_variants` columns of the job. -/
def updateSyncJobProgress (jobs : List SyncJob) (jobId processed indexed : Nat) : List SyncJob :=
  jobs.map (fun j =>
    if j.id = jobId then { j with processed_variants := processed, indexed_variants := indexed }
    else j)

/-- Embedding of `completeSyncJob`: SET status, indexed_variants,
error_message and completed_at on the job row. -/
def completeSyncJob (jobs : List SyncJob) (jobId : Nat) (status : String)
    (indexedVariants : Nat) (errorMessage : Option String) (now : Nat) : List SyncJob :=
  jobs.map (fun j =>
    if j.id = jobId then
      { j with status := status, indexed_variants := indexedVariants,
               error_message := errorMessage, completed_at := some now }
    else j)

/-- Product part of the shape returned by `fetchVariantsWithMetafield`
(`featuredImage` flattened to its `url`). -/
structure SProduct where
  id : String
  title : String
  handle : String
  featuredImage : Option String
  deriving DecidableEq, Repr

/-- Variant shape returned by `fetchVariantsWithMetafield` (image flattened to
its `url`; `mpn` is the metafield value after the `|| null` coercion). -/
structure SVariant where
  id : String
  title : Option String
  sku : Option String
  price : Option String
  image : Option String
  mpn : Option String
  product : SProduct
  deriving DecidableEq, Repr

/-- The per-page transform inside `runFullSync` (routes/sync.js): map a
fetched variant onto the `upsertVariant` input shape, with the
`v.image?.url || v.product.featuredImage?.url || null` fallback. -/
def transformVariant (v : SVariant) : Variant :=
  { variant_id := v.id
    product_id := v.product.id
    product_handle := v.product.handle
    product_title := v.product.title
    variant_title := v.title
    image_url := jsOrStr v.image v.product.featuredImage
    mpn := v.mpn
    sku := v.sku
    price := v.price }

/-- The database as seen by the sync routes: index store plus sync jobs. -/
structure AppDb where
  store : Store
  jobs : List SyncJob
  deriving DecidableEq, Repr

/-- The page loop of `runFullSync`.  Each list element is one
`fetchVariantsWithMetafield` call: `Except.error` is a thrown fetch/transform
failure, `Except.ok` a fetched page.  The accumulators mirror
`totalProcessed`/`totalIndexed`; a failure falls to the catch block, which
finalizes the job as 'failed' with the totals so far and rethrows. -/
def syncLoop (jobId now : Nat) :
    List (Except String (List SVariant)) → Nat → Nat → AppDb → Except String Nat × AppDb
  | [], _, totalI, db =>
    (Except.ok totalI, { db with jobs := completeSyncJob db.jobs jobId "completed" totalI none now })
  | Except.error e :: _, _, totalI, db =>
    (Except.error e, { db with jobs := completeSyncJob db.jobs jobId "failed" totalI (some e) now })
  | Except.ok vs :: rest, totalP, totalI, db =>
    let res := bulkUpsertVariants db.store (vs.map transformVariant) now
    let totalP' := totalP + vs.length
    let totalI' := totalI + res.2.1
    syncLoop jobId now rest totalP' totalI'
      { store := res.1, jobs := updateSyncJobProgress db.jobs jobId totalP' totalI' }

/-- Embedding of `runFullSync` (routes/sync.js): clear the index, then run the
page loop from zero counters.  The `Except` result is what the function
returns or rethrows to its caller. -/
def runFullSync (jobId : Nat) (pages : List (Except String (List SVariant)))
    (now : Nat) (db : AppDb) : Except String Nat × AppDb :=
  syncLoop jobId now pages 0 0 { db with store := (clearIndex db.store).1 }

/-- The webhook payload fields consumed by `processProductUpdate`. -/
structure WebhookProduct where
  id : String
  handle : String
  title : String
  deriving DecidableEq, Repr

/-- Variant shape returned by `fetchProductVariants` as consumed by
`processProductUpdate` (image flattened to its `url`). -/
structure PVariant where
  id : String
  title : Option String
  sku : Option String
  price : Option String
  image : Option String
  mpn : Option String
  deriving DecidableEq, Repr

/-- The `gid://shopify/Product/id` string built by the webhook handlers. -/
def productGidOf (id : String) : String := "gid://shopify/Product/" ++ id

/-- The record `processProductUpdate` assembles for `upsertVariant`:
product fields come from the webhook payload, variant fields from the fresh
GraphQL fetch, with the `variant.image?.url || null` coercion. -/
def webhookVariantRecord (p : WebhookProduct) (v : PVariant) : Variant :=
  { variant_id := v.id
    product_id := productGidOf p.id
    product_handle := p.handle
    product_title := p.title
    variant_title := v.title
    image_url := jsOrStr v.image none
    mpn := v.mpn
    sku := v.sku
    price := v.price }

/-- The variant loop of `processProductUpdate`.  `fails` is the failure
oracle for the per-variant database write: a failing write throws, and since
the only try/catch is outside the loop, the loop aborts there with the store
as written so far. -/
def processVariantsLoop (p : WebhookProduct) (fails : String → Bool) (now : Nat) :
    List PVariant → Store → Store
  | [], st => st
  | v :: rest, st =>
    if fails v.id then st
    else if jsTruthy v.mpn then
      processVariantsLoop p fails now rest (upsertVariant st (webhookVariantRecord p v) now)
    else
      processVariantsLoop p fails now rest (deleteVariant st v.id).1

/-- Embedding of `processProductUpdate` (routes/sync.js): fetch the product's
current variants (a failure is caught and logged, leaving the store
untouched), then upsert each variant with a truthy mpn and delete each
without one; any error inside the loop is caught by the same outer catch. -/
def processProductUpdate (p : WebhookProduct) (fetched : Except String (List PVariant))
    (fails : String → Bool) (now : Nat) (st : Store) : Store :=
  match fetched with
  | Except.error _ => st
  | Except.ok vs => processVariantsLoop p fails now vs st

/-- Observable outcome of one webhook delivery: HTTP status, resulting index
store, and how many upstream GraphQL fetches were issued. -/
structure HandlerResult where
  status : Nat
  store : Store
  fetches : Nat
  deriving Repr

/-- Embedding of the `products-update` webhook handler: the HMAC gate
(`verifyWebhook`, whose outcome is the boolean `verified`) runs first and an
unverified delivery is answered 401 before any fetch or store access;
otherwise the handler acknowledges 200 and runs `processProductUpdate`,
which issues one fetch. -/
def productsUpdateWebhook (verified : Bool) (p : WebhookProduct)
    (fetched : Except String (List PVariant)) (fails : String → Bool)
    (now : Nat) (st : Store) : HandlerResult :=
  if verified then
    { status := 200, store := processProductUpdate p fetched fails now st, fetches := 1 }
  else
    { status := 401, store := st, fetches := 0 }

/-- Embedding of the `products-delete` webhook handler: the HMAC gate runs
first; a verified delivery deletes the product's variants by gid. -/
def productsDeleteWebhook (verified : Bool) (productId : String) (st : Store) : HandlerResult :=
  if verified then
    { status := 200, store := (deleteProductVariants st (productGidOf productId)).1, fetches := 0 }
  else
    { status := 401, store := st, fetches := 0 }

/-- One parsed JSONL line of a bulk-export result, with every field optional
(the JS object carries whichever keys the line had); nested images and the
metafield are flattened to their `url`/`value`. -/
structure BulkLine where
  id : Option String
  parentId : Option String
  title : Option String
  handle : Option String
  featuredImage : Option String
  sku : Option String
  price : Option String
  image : Option String
  metafieldValue : Option String
  deriving DecidableEq, Repr

/-- Entry of the `products` map built by the first parse loop. -/
structure BProduct where
  id : String
  title : Option String
  handle : Option String
  featuredImage : Option String
  deriving DecidableEq, Repr

/-- Entry of the `variants` array built by the first parse loop (`mpn` is
`obj.metafield?.value || null`). -/
structure BVariant where
  id : String
  parentId : Option String
  title : Option String
  sku : Option String
  price : Option String
  image : Option String
  mpn : Option String
  deriving DecidableEq, Repr

/-- Output element of `downloadAndParseBulkResults`. -/
structure FilteredVariant where
  id : String
  title : Option String
  sku : Option String
  price : Option String
  image : Option String
  mpn : Option String
  product : BProduct
  deriving DecidableEq, Repr

def listStartsWith [DecidableEq α] : List α → List α → Bool
  | [], _ => true
  | _ :: _, [] => false
  | a :: as, b :: bs => if a = b then listStartsWith as bs else false

def listContainsSeq [DecidableEq α] (pat : List α) : List α → Bool
  | [] => pat.isEmpty
  | x :: t => listStartsWith pat (x :: t) || listContainsSeq pat t

/-- JS `String.prototype.includes`. -/
def strIncludes (s pat : String) : Bool := listContainsSeq pat.toList s.toList

/-- JS `Map.set` on the `products` map: replace the value under an existing
key, otherwise add the pair. -/
def mapSet (m : List (String × BProduct)) (k : String) (v : BProduct) : List (String × BProduct) :=
  if m.any (fun e => decide (e.1 = k)) then
    m.map (fun e => if e.1 = k then (k, v) else e)
  else m ++ [(k, v)]

/-- JS `Map.get` on the `products` map. -/
def mapGet (m : List (String × BProduct)) (k : String) : Option BProduct :=
  match m.find? (fun e => decide (e.1 = k)) with
  | none => none
  | some e => some e.2

/-- First loop of `downloadAndParseBulkResults`: classify each line by its
gid (`id.includes('/Product/')`, then `id.includes('/ProductVariant/')`),
building the `products` map and the `variants` array in delivery order. -/
def parseBulkLines : List BulkLine → List (String × BProduct) → List BVariant →
    List (String × BProduct) × List BVariant
  | [], prods, vars => (prods, vars)
  | l :: rest, prods, vars =>
    match l.id with
    | none => parseBulkLines rest prods vars
    | some i =>
      if strIncludes i "/Product/" then
        parseBulkLines rest
          (mapSet prods i { id := i, title := l.title, handle := l.handle,
                            featuredImage := l.featuredImage }) vars
      else if strIncludes i "/ProductVariant/" then
        parseBulkLines rest prods
          (vars ++ [{ id := i, parentId := l.parentId, title := l.title, sku := l.sku,
                      price := l.price, image := l.image,
                      mpn := jsOrStr l.metafieldValue none }])
      else parseBulkLines rest prods vars

/-- The `products.get(variant.parentId)` lookup (`undefined` parent id looks
up nothing). -/
def parentOf (products : List (String × BProduct)) (v : BVariant) : Option BProduct :=
  match v.parentId with
  | none => none
  | some pid => mapGet products pid

/-- The output element pushed by the filter loop. -/
def mkFilteredVariant (v : BVariant) (p : BProduct) : FilteredVariant :=
  { id := v.id, title := v.title, sku := v.sku, price := v.price, image := v.image,
    mpn := v.mpn, product := p }

/-- Second loop of `downloadAndParseBulkResults`: a variant whose parent is
absent from the `products` map is dropped with `continue` (no counter); a
variant with a falsy mpn bumps `skippedNoMpn`; the rest are kept in order. -/
def filterBulkVariants (products : List (String × BProduct)) :
    List BVariant → List FilteredVariant × Nat
  | [] => ([], 0)
  | v :: rest =>
    let res := filterBulkVariants products rest
    match parentOf products v with
    | none => res
    | some p =>
      if jsTruthy v.mpn then
        (mkFilteredVariant v p :: res.1, res.2)
      else (res.1, res.2 + 1)

/-- Embedding of `downloadAndParseBulkResults` (services/shopifyGraphQL.js)
from the structured-line level (the JSONL text decode is outside the engine):
build the products map and variants array, then filter; returns the variants
to index and the `skippedNoMpn` counter. -/
def downloadAndParseBulkResults (lines : List BulkLine) : List FilteredVariant × Nat :=
  let pv := parseBulkLines lines [] []
  filterBulkVariants pv.1 pv.2

/-- One write entry point of the engine against the index store, with the
inputs it is invoked on in the source. -/
inductive WriteOp where
  | syncPage (vs : List SVariant) (now : Nat)
  | webhookUpdate (p : WebhookProduct) (fetched : Except String (List PVariant))
      (fails : String → Bool) (now : Nat)
  | webhookDelete (productId : String)
  | clearAll

/-- Apply one engine write operation to the index store. -/
def applyWriteOp (st : Store) : WriteOp → Store
  | WriteOp.syncPage vs now => (bulkUpsertVariants st (vs.map transformVariant) now).1
  | WriteOp.webhookUpdate p fetched fails now => processProductUpdate p fetched fails now st
  | WriteOp.webhookDelete pid => (deleteProductVariants st (productGidOf pid)).1
  | WriteOp.clearAll => (clearIndex st).1

/-- Apply a sequence of engine write operations in order. -/
def applyWriteOps : Store → List WriteOp → Store
  | st, [] => st
  | st, op :: rest => applyWriteOps (applyWriteOp st op) rest

/-- Uppercase ASCII letter or ASCII digit — the character class the spec
allows in a canonical key. -/
def isUpperAlnum (c : Char) : Bool :=
  (48 ≤ c.toNat && c.toNat ≤ 57) || (65 ≤ c.toNat && c.toNat ≤ 90)

/-- A row with its `updated_at` column erased, for comparing store states
modulo the refresh timestamp. -/
structure RowSnapshot where
  id : Nat
  variant_id : String
  product_id : String
  product_handle : String
  product_title : String
  variant_title : Option String
  image_url : Option String
  mpn : Option String
  mpn_normalized : Option String
  sku : Option String
  price : Option String
  created_at : Nat
  deriving DecidableEq, Repr

def eraseTime (r : Row) : RowSnapshot :=
  { id := r.id, variant_id := r.variant_id, product_id := r.product_id,
    product_handle := r.product_handle, product_title := r.product_title,
    variant_title := r.variant_title, image_url := r.image_url, mpn := r.mpn,
    mpn_normalized := r.mpn_normalized, sku := r.sku, price := r.price,
    created_at := r.created_at }

/-- One non-failing iteration of the `processProductUpdate` loop: upsert when
the mpn is truthy, delete when it is not. -/
def applyWebhookVariant (p : WebhookProduct) (now : Nat) (st : Store) (v : PVariant) : Store :=
  if jsTruthy v.mpn then upsertVariant st (webhookVariantRecord p v) now
  else (deleteVariant st v.id).1

/-- Number of variants `bulkUpsertVariants` reports as indexed across a list
of successfully fetched pages: those with a truthy raw mpn. -/
def goodPagesIndexed (pages : List (List SVariant)) : Nat :=
  (pages.map (fun vs => vs.countP (fun v => jsTruthy v.mpn))).sum

/-- Concrete fixtures used by the witness theorems. -/
def exProduct : SProduct :=
  { id := "gid://shopify/Product/1", title := "Acme Paint", handle := "acme-paint",
    featuredImage := some "https://cdn/img1.png" }

def exSVariant : SVariant :=
  { id := "gid://shopify/ProductVariant/100", title := some "Red", sku := some "ACM-1",
    price := some "12.99", image := none, mpn := some "7665-PP", product := exProduct }

def exSVariant2 : SVariant :=
  { id := "gid://shopify/ProductVariant/101", title := some "Blue", sku := some "ACM-2",
    price := some "13.99", image := none, mpn := some "T567L", product := exProduct }

def exSVariant3 : SVariant :=
  { id := "gid://shopify/ProductVariant/102", title := some "Green", sku := some "ACM-3",
    price := some "14.99", image := none, mpn := some "ZZ99", product := exProduct }

def exSVariantBad : SVariant :=
  { id := "gid://shopify/ProductVariant/103", title := some "Dash", sku := some "ACM-4",
    price := some "15.99", image := none, mpn := some "-", product := exProduct }

def exVariant : Variant := transformVariant exSVariant

def exAppDb : AppDb :=
  { store := emptyStore, jobs := createSyncJob [] 1 "example.myshopify.com" "full" }

def exWebhookProduct : WebhookProduct :=
  { id := "1", handle := "acme-paint", title := "Acme Paint" }

def exPVariant1 : PVariant :=
  { id := "gid://shopify/ProductVariant/100", title := some "Red", sku := some "ACM-1",
    price := some "12.99", image := none, mpn := some "7665-PP" }

def exPVariant2 : PVariant :=
  { id := "gid://shopify/ProductVariant/101", title := some "Blue", sku := some "ACM-2",
    price := some "13.99", image := none, mpn := some "T567L" }

/-- Failure oracle making exactly the first example variant's write fail. -/
def exFails (s : String) : Bool := decide (s = "gid://shopify/ProductVariant/100")

/-- The job row left behind by the failing example sync run. -/
def exFailedJob : SyncJob :=
  { id := 1, shop := "example.myshopify.com", sync_type := "full", status := "failed",
    total_variants := 0, processed_variants := 2, indexed_variants := 2,
    error_message := some "boom", completed_at := some 9 }

def exProductLine : BulkLine :=
  { id := some "gid://shopify/Product/1", parentId := none, title := some "Acme Paint",
    handle := some "acme-paint", featuredImage := none, sku := none, price := none,
    image := none, metafieldValue := none }

/-- A variant line whose `__parentId` names a product absent from the result
set, yet which carries an MPN. -/
def exOrphanLine : BulkLine :=
  { id := some "gid://shopify/ProductVariant/900", parentId := some "gid://shopify/Product/2",
    title := some "Orphan", handle := none, featuredImage := none, sku := some "OR-1",
    price := some "9.99", image := none, metafieldValue := some "AB12" }

lemma char_toNat_ofNat_lt (n : Nat) (h : n < 55296) : (Char.ofNat n).toNat = n := by
  have hv : n.isValidChar := Or.inl h
  simp [Char.ofNat, hv, Char.ofNatAux, Char.toNat]
  rfl

lemma jsUpper_upper_of_alnum (c : Char) (h : isAsciiAlnum c = true) :
    isUpperAlnum (jsUpper c) = true := by
  simp only [isAsciiAlnum, Bool.or_eq_true, Bool.and_eq_true, decide_eq_true_eq] at h
  unfold jsUpper
  split
  · next hcond =>
    simp only [Bool.and_eq_true, decide_eq_true_eq] at hcond
    have h2 : (Char.ofNat (c.toNat - 32)).toNat = c.toNat - 32 :=
      char_toNat_ofNat_lt _ (by omega)
    simp only [isUpperAlnum, h2, Bool.or_eq_true, Bool.and_eq_true, decide_eq_true_eq]
    omega
  · next hcond =>
    simp only [Bool.and_eq_true, decide_eq_true_eq] at hcond
    simp only [isUpperAlnum, Bool.or_eq_true, Bool.and_eq_true, decide_eq_true_eq]
    omega

lemma jsUpper_fixed_of_upper (c : Char) (h : isUpperAlnum c = true) : jsUpper c = c := by
  simp only [isUpperAlnum, Bool.or_eq_true, Bool.and_eq_true, decide_eq_true_eq] at h
  unfold jsUpper
  split
  · next hcond =>
    exfalso
    simp only [Bool.and_eq_true, decide_eq_true_eq] at hcond
    omega
  · rfl

lemma alnum_of_upper (c : Char) (h : isUpperAlnum c = true) : isAsciiAlnum c = true := by
  simp only [isUpperAlnum, Bool.or_eq_true, Bool.and_eq_true, decide_eq_true_eq] at h
  simp only [isAsciiAlnum, Bool.or_eq_true, Bool.and_eq_true, decide_eq_true_eq]
  omega

lemma toList_normalizeStr (s : String) :
    (normalizeStr s).toList = (s.toList.filter isAsciiAlnum).map jsUpper := rfl

lemma mem_normalizeStr_upper (s : String) (c : Char) (hc : c ∈ (normalizeStr s).toList) :
    isUpperAlnum c = true := by
  rw [toList_normalizeStr] at hc
  obtain ⟨a, ha, rfl⟩ := List.mem_map.mp hc
  exact jsUpper_upper_of_alnum a (List.mem_filter.mp ha).2

lemma normalizeStr_of_upper (s : String) (h : ∀ c ∈ s.toList, isUpperAlnum c = true) :
    normalizeStr s = s := by
  have hfilter : s.toList.filter isAsciiAlnum = s.toList :=
    List.filter_eq_self.mpr (fun a ha => alnum_of_upper a (h a ha))
  have hmap : s.toList.map jsUpper = s.toList := by
    have := List.map_congr_left (fun a ha => jsUpper_fixed_of_upper a (h a ha))
    simpa using this
  unfold normalizeStr
  rw [hfilter, hmap]
  cases s
  rfl

lemma normalizeStr_idem (s : String) : normalizeStr (normalizeStr s) = normalizeStr s :=
  normalizeStr_of_upper _ (mem_normalizeStr_upper s)

/-- C3 counterexample: `normalizeMpn` is not idempotent.  A non-empty input
made only of punctuation, here `"-"`, normalizes to `some ""`; feeding that
back in hits the falsy-input guard and yields `none`, so
`Normalize(Normalize("-")) ≠ Normalize("-")`. -/
theorem normalizeMpn_not_idempotent_cx :
    ¬ (normalizeMpn (normalizeMpn (some "-")) = normalizeMpn (some "-")) := by decide

/-- C3 (amended): `normalizeMpn` is idempotent on every input whose
normalization is not the empty string; its output contains only uppercase
ASCII letters and digits; and absent or empty input yields an absent output.
Idempotence fails exactly when the input is non-empty but has no
alphanumeric character, in which case the first pass returns `some ""` and
the second returns `none`. -/
theorem normalizeMpn_amended (s : Option String) :
    (normalizeMpn s ≠ some "" → normalizeMpn (normalizeMpn s) = normalizeMpn s) ∧
    (∀ k, normalizeMpn s = some k → ∀ c ∈ k.toList, isUpperAlnum c = true) ∧
    normalizeMpn none = none ∧ normalizeMpn (some "") = none := by
  refine ⟨?_, ?_, rfl, by decide⟩
  · intro hne
    match s with
    | none => rfl
    | some str =>
      by_cases hs : str = ""
      · subst hs
        decide
      · have h1 : normalizeMpn (some str) = some (normalizeStr str) := by
          simp [normalizeMpn, hs]
        rw [h1] at hne ⊢
        have h2 : normalizeStr str ≠ "" := fun h => hne (by rw [h])
        have h3 : normalizeMpn (some (normalizeStr str)) =
            some (normalizeStr (normalizeStr str)) := by
          simp [normalizeMpn, h2]
        rw [h3, normalizeStr_idem]
  · intro k hk c hc
    match s with
    | none => cases hk
    | some str =>
      by_cases hs : str = ""
      · rw [hs] at hk
        cases hk
      · have h1 : normalizeMpn (some str) = some (normalizeStr str) := by
          simp [normalizeMpn, hs]
        rw [h1] at hk
        have hkeq : k = normalizeStr str := (Option.some.injEq _ _ ▸ hk).symm
        exact mem_normalizeStr_upper str c (hkeq ▸ hc)

/-- C3 witness: the amended idempotence and character-class facts evaluated
at the spec's own example input `"7665-PP"`. -/
theorem normalizeMpn_amended_witness :
    normalizeMpn (normalizeMpn (some "7665-PP")) = normalizeMpn (some "7665-PP") ∧
    isUpperAlnum 'P' = true :=
  ⟨(normalizeMpn_amended (some "7665-PP")).1 (by decide),
   (normalizeMpn_amended (some "7665-PP")).2.1 "7665PP" (by decide) 'P' (by decide)⟩

/-- C1: a search whose normalized query is absent or shorter than two
characters returns the empty list; otherwise `searchByMpn` returns at most
`limit` rows, and every row it draws from the table has `mpn_normalized`
exactly equal to the normalized query — equality, never a prefix or
substring match. -/
theorem searchByMpn_exact_match (st : Store) (q : String) (n : Nat) :
    ((normalizeMpn (some q) = none ∨ ∃ k, normalizeMpn (some q) = some k ∧ k.length < 2) →
      searchByMpn st q n = []) ∧
    (searchByMpn st q n).length ≤ n ∧
    (∀ r ∈ matchingRows st q n, r.mpn_normalized = normalizeMpn (some q)) := by
  cases hq : normalizeMpn (some q) with
  | none => simp [searchByMpn, matchingRows, hq]
  | some k =>
    by_cases hk : k.length < 2
    · refine ⟨fun _ => ?_, ?_, ?_⟩
      · simp [searchByMpn, matchingRows, hq, hk]
      · simp [searchByMpn, matchingRows, hq, hk]
      · intro r hr
        simp [matchingRows, hq, hk] at hr
    · refine ⟨?_, ?_, ?_⟩
      · intro h
        rcases h with h | ⟨k2, hk2, hl2⟩
        · exact absurd h (Option.some_ne_none k)
        · have hkk : k = k2 := Option.some.inj hk2
          exact absurd (by rw [hkk]; exact hl2) hk
      · have hlen : (matchingRows st q n).length ≤ n := by
          simp only [matchingRows, hq, if_neg hk]
          exact List.length_take_le n _
        simpa [searchByMpn] using hlen
      · intro r hr
        simp only [matchingRows, hq, if_neg hk] at hr
        have hr2 := List.mem_of_mem_take hr
        exact of_decide_eq_true (List.mem_filter.mp hr2).2

/-- C1 witness: the below-minimum-length query `"a-"` (normalizing to the
one-character key `"A"`) returns the empty list. -/
theorem searchByMpn_exact_match_witness : searchByMpn emptyStore "a-" 5 = [] :=
  (searchByMpn_exact_match emptyStore "a-" 5).1 (Or.inr ⟨"A", by decide, by decide⟩)

lemma filter_idem {α : Type} (p : α → Bool) (l : List α) :
    (l.filter p).filter p = l.filter p := by
  rw [List.filter_filter]
  simp

/-- C9: `deleteVariant` removes every row with the given variant id, is a
no-op reporting zero changes when no such row exists, and composing it with
itself equals a single delete (second call changes nothing and reports zero
changes); likewise `deleteProductVariants` re-delivered on the same product
id is a no-op the second time. -/
theorem deleteVariant_idempotent (st : Store) (vid pid : String) :
    (∀ r ∈ (deleteVariant st vid).1.rows, r.variant_id ≠ vid) ∧
    ((∀ r ∈ st.rows, r.variant_id ≠ vid) → deleteVariant st vid = (st, 0)) ∧
    deleteVariant (deleteVariant st vid).1 vid = ((deleteVariant st vid).1, 0) ∧
    deleteProductVariants (deleteProductVariants st pid).1 pid =
      ((deleteProductVariants st pid).1, 0) := by
  refine ⟨?_, ?_, ?_, ?_⟩
  · intro r hr
    simp only [deleteVariant] at hr
    exact of_decide_eq_true (List.mem_filter.mp hr).2
  · intro h
    have hfil : st.rows.filter (fun r => !decide (r.variant_id = vid)) = st.rows := by
      refine List.filter_eq_self.mpr (fun a ha => ?_)
      simp [h a ha]
    simp [deleteVariant, hfil]
  · simp [deleteVariant, filter_idem]
  · simp [deleteProductVariants, filter_idem]

/-- C9 witness: deleting an absent variant id from the empty store succeeds
with zero changes. -/
theorem deleteVariant_idempotent_witness : deleteVariant emptyStore "v9" = (emptyStore, 0) :=
  (deleteVariant_idempotent emptyStore "v9" "p9").2.1 (by decide)

lemma upsert_eq_of_any (st : Store) (v : Variant) (t : Nat)
    (hc : st.rows.any (fun r => decide (r.variant_id = v.variant_id)) = true) :
    upsertVariant st v t = { st with rows := applyOverwrite v t st.rows } := by
  unfold upsertVariant
  rw [if_pos hc]

lemma upsert_eq_of_not_any (st : Store) (v : Variant) (t : Nat)
    (hc : st.rows.any (fun r => decide (r.variant_id = v.variant_id)) = false) :
    upsertVariant st v t =
      { rows := st.rows ++ [newRow st.nextId v t], nextId := st.nextId + 1 } := by
  unfold upsertVariant
  rw [if_neg]
  simp [hc]

lemma upsert_any_self (st : Store) (v : Variant) (t : Nat) :
    (upsertVariant st v t).rows.any (fun r => decide (r.variant_id = v.variant_id)) = true := by
  by_cases hc : st.rows.any (fun r => decide (r.variant_id = v.variant_id)) = true
  · rw [upsert_eq_of_any st v t hc]
    rcases List.any_eq_true.mp hc with ⟨r, hr, hrv⟩
    refine List.any_eq_true.mpr ⟨overwriteRow r v t, ?_, ?_⟩
    · refine List.mem_map.mpr ⟨r, hr, ?_⟩
      rw [if_pos (of_decide_eq_true hrv)]
    · exact hrv
  · rw [upsert_eq_of_not_any st v t (Bool.eq_false_iff.mpr hc)]
    refine List.any_eq_true.mpr ⟨newRow st.nextId v t, ?_, ?_⟩
    · exact List.mem_append.mpr (Or.inr (List.mem_singleton.mpr rfl))
    · exact decide_eq_true rfl

lemma upsert_matching_fields (st : Store) (v : Variant) (t : Nat) :
    ∀ r ∈ (upsertVariant st v t).rows, r.variant_id = v.variant_id →
      r.product_id = v.product_id ∧ r.product_handle = v.product_handle ∧
      r.product_title = v.product_title ∧ r.variant_title = v.variant_title ∧
      r.image_url = v.image_url ∧ r.mpn = v.mpn ∧
      r.mpn_normalized = normalizeMpn v.mpn ∧ r.sku = v.sku ∧ r.price = v.price ∧
      r.updated_at = t := by
  intro r hr hid
  by_cases hc : st.rows.any (fun rr => decide (rr.variant_id = v.variant_id)) = true
  · rw [upsert_eq_of_any st v t hc] at hr
    rcases List.mem_map.mp hr with ⟨r0, hr0, heq⟩
    by_cases h0 : r0.variant_id = v.variant_id
    · rw [if_pos h0] at heq
      subst heq
      exact ⟨rfl, rfl, rfl, rfl, rfl, rfl, rfl, rfl, rfl, rfl⟩
    · rw [if_neg h0] at heq
      subst heq
      exact absurd hid h0
  · rw [upsert_eq_of_not_any st v t (Bool.eq_false_iff.mpr hc)] at hr
    rcases List.mem_append.mp hr with h1 | h1
    · exact absurd (List.any_eq_true.mpr ⟨r, h1, decide_eq_true hid⟩) hc
    · have heq : r = newRow st.nextId v t := List.mem_singleton.mp h1
      subst heq
      exact ⟨rfl, rfl, rfl, rfl, rfl, rfl, rfl, rfl, rfl, rfl⟩

/-- C10: upserting the same record twice leaves the store in the same state
as upserting it once except for the `updated_at` refresh (row snapshots,
row count and the AUTOINCREMENT counter all agree), and an upsert fully
overwrites every data column of the row carrying that `variant_id`,
recomputing `mpn_normalized` from the raw mpn. -/
theorem upsertVariant_twice (st : Store) (v : Variant) (t1 t2 : Nat) :
    (upsertVariant (upsertVariant st v t1) v t2).rows.map eraseTime =
      (upsertVariant st v t1).rows.map eraseTime ∧
    (upsertVariant (upsertVariant st v t1) v t2).rows.length =
      (upsertVariant st v t1).rows.length ∧
    (upsertVariant (upsertVariant st v t1) v t2).nextId =
      (upsertVariant st v t1).nextId ∧
    (∀ r ∈ (upsertVariant st v t2).rows, r.variant_id = v.variant_id →
      r.mpn_normalized = normalizeMpn v.mpn ∧ r.mpn = v.mpn ∧ r.product_id = v.product_id ∧
      r.product_handle = v.product_handle ∧ r.product_title = v.product_title ∧
      r.variant_title = v.variant_title ∧ r.image_url = v.image_url ∧ r.sku = v.sku ∧
      r.price = v.price ∧ r.updated_at = t2) := by
  have hc2 := upsert_any_self st v t1
  rw [upsert_eq_of_any _ _ _ hc2]
  refine ⟨?_, ?_, rfl, ?_⟩
  · show ((upsertVariant st v t1).rows.map fun r =>
      if r.variant_id = v.variant_id then overwriteRow r v t2 else r).map eraseTime =
      (upsertVariant st v t1).rows.map eraseTime
    rw [List.map_map]
    refine List.map_congr_left ?_
    intro r hr
    by_cases h0 : r.variant_id = v.variant_id
    · have hf := upsert_matching_fields st v t1 r hr h0
      obtain ⟨h1, h2, h3, h4, h5, h6, h7, h8, h9, _⟩ := hf
      simp only [Function.comp_apply, if_pos h0]
      simp [eraseTime, overwriteRow, h1, h2, h3, h4, h5, h6, h7, h8, h9]
    · simp only [Function.comp_apply, if_neg h0]
  · show ((upsertVariant st v t1).rows.map fun r =>
      if r.variant_id = v.variant_id then overwriteRow r v t2 else r).length =
      (upsertVariant st v t1).rows.length
    rw [List.length_map]
  · intro r hr hid
    obtain ⟨h1, h2, h3, h4, h5, h6, h7, h8, h9, h10⟩ :=
      upsert_matching_fields st v t2 r hr hid
    exact ⟨h7, h6, h1, h2, h3, h4, h5, h8, h9, h10⟩

/-- C10 witness: the double upsert of the example variant agrees with the
single upsert up to timestamps, and the inserted row's canonical key is the
normalization of its raw mpn. -/
theorem upsertVariant_twice_witness :
    (upsertVariant (upsertVariant emptyStore exVariant 3) exVariant 7).rows.map eraseTime =
      (upsertVariant emptyStore exVariant 3).rows.map eraseTime ∧
    (newRow 1 exVariant 3).mpn_normalized = normalizeMpn exVariant.mpn :=
  ⟨(upsertVariant_twice emptyStore exVariant 3 7).1,
   ((upsertVariant_twice emptyStore exVariant 3 3).2.2.2 (newRow 1 exVariant 3)
     (by decide) (by decide)).1⟩

lemma countP_congr_mem {α : Type} (p q : α → Bool) (l : List α) (h : ∀ a ∈ l, p a = q a) :
    l.countP p = l.countP q := by
  induction l with
  | nil => rfl
  | cons a t ih =>
    rw [List.countP_cons, List.countP_cons, h a (List.mem_cons_self a t),
        ih (fun b hb => h b (List.mem_cons_of_mem a hb))]

lemma countP_applyOverwrite (v : Variant) (t : Nat) (rows : List Row) :
    (applyOverwrite v t rows).countP (fun r => decide (r.variant_id = v.variant_id)) =
      rows.countP (fun r => decide (r.variant_id = v.variant_id)) := by
  unfold applyOverwrite
  induction rows with
  | nil => rfl
  | cons r rest ih =>
    rw [List.map_cons, List.countP_cons, List.countP_cons, ih]
    by_cases h0 : r.variant_id = v.variant_id
    · simp [if_pos h0, overwriteRow, h0]
    · simp [if_neg h0]

lemma upsert_countP_id (st : Store) (v : Variant) (t : Nat)
    (h : st.rows.countP (fun r => decide (r.variant_id = v.variant_id)) ≤ 1) :
    (upsertVariant st v t).rows.countP (fun r => decide (r.variant_id = v.variant_id)) = 1 := by
  by_cases hc : st.rows.any (fun r => decide (r.variant_id = v.variant_id)) = true
  · rw [upsert_eq_of_any st v t hc]
    show (applyOverwrite v t st.rows).countP _ = 1
    rw [countP_applyOverwrite]
    rcases List.any_eq_true.mp hc with ⟨r, hr, hrv⟩
    have hpos : 0 < st.rows.countP (fun r => decide (r.variant_id = v.variant_id)) :=
      List.countP_pos_iff.mpr ⟨r, hr, hrv⟩
    omega
  · have hcf : st.rows.any (fun r => decide (r.variant_id = v.variant_id)) = false :=
      Bool.eq_false_iff.mpr hc
    rw [upsert_eq_of_not_any st v t hcf]
    show (st.rows ++ [newRow st.nextId v t]).countP _ = 1
    rw [List.countP_append]
    have hz : st.rows.countP (fun r => decide (r.variant_id = v.variant_id)) = 0 := by
      refine List.countP_eq_zero.mpr ?_
      intro a ha hpa
      exact hc (List.any_eq_true.mpr ⟨a, ha, hpa⟩)
    rw [hz]
    simp [List.countP_cons, newRow]

/-- C4: after upserting a record whose raw mpn normalizes to a key of length
at least two, searching the store with that same raw string (the query-time
normalization of which agrees with the write-time one) returns exactly one
entry carrying the record's variant id, provided the store respected the
`variant_id` UNIQUE constraint and the limit covers the table. -/
theorem upsert_then_search (st : Store) (v : Variant) (now n : Nat) (raw key : String)
    (hraw : v.mpn = some raw) (hkey : normalizeMpn v.mpn = some key) (hlen : 2 ≤ key.length)
    (huniq : st.rows.countP (fun r => decide (r.variant_id = v.variant_id)) ≤ 1)
    (hn : (upsertVariant st v now).rows.length ≤ n) :
    (searchByMpn (upsertVariant st v now) raw n).countP
      (fun sr => decide (sr.variant_id = v.variant_id)) = 1 := by
  set st' := upsertVariant st v now with hst'
  have hq : normalizeMpn (some raw) = some key := by rw [← hraw]; exact hkey
  have hnotlt : ¬ key.length < 2 := by omega
  have hmr : matchingRows st' raw n =
      (st'.rows.filter (fun r => decide (r.mpn_normalized = some key))).take n := by
    simp only [matchingRows, hq, if_neg hnotlt]
  have hfl : (st'.rows.filter (fun r => decide (r.mpn_normalized = some key))).length ≤ n :=
    le_trans (List.length_filter_le _ _) hn
  have htake := List.take_of_length_le hfl
  unfold searchByMpn
  rw [hmr, htake, List.countP_map]
  have hcomp : ((fun sr : SearchRow => decide (sr.variant_id = v.variant_id)) ∘ projectRow) =
      (fun r : Row => decide (r.variant_id = v.variant_id)) := rfl
  rw [hcomp, List.countP_filter]
  have hcong : ∀ r ∈ st'.rows,
      (decide (r.variant_id = v.variant_id) && decide (r.mpn_normalized = some key)) =
      decide (r.variant_id = v.variant_id) := by
    intro r hr
    by_cases h0 : r.variant_id = v.variant_id
    · have hf := (upsert_matching_fields st v now r hr h0).2.2.2.2.2.2.1
      rw [hkey] at hf
      simp [h0, hf]
    · simp [h0]
  rw [countP_congr_mem _ _ _ hcong]
  exact upsert_countP_id st v now huniq

/-- C4 witness: upserting the example variant (raw mpn `"7665-PP"`) into the
empty store and searching for the raw string returns exactly one entry with
its variant id. -/
theorem upsert_then_search_witness :
    (searchByMpn (upsertVariant emptyStore exVariant 0) "7665-PP" 5).countP
      (fun sr => decide (sr.variant_id = exVariant.variant_id)) = 1 :=
  upsert_then_search emptyStore exVariant 0 5 "7665-PP" "7665PP" (by decide) (by decide)
    (by decide) (by decide) (by decide)

lemma normalizeMpn_isSome_of_truthy (m : Option String) (h : jsTruthy m = true) :
    normalizeMpn m ≠ none := by
  match m with
  | none => simp [jsTruthy] at h
  | some s =>
    have hs : s ≠ "" := by simpa [jsTruthy] using h
    simp [normalizeMpn, hs]

/-- Rows all carry a present (non-null) canonical key. -/
def goodRows (st : Store) : Prop := ∀ r ∈ st.rows, r.mpn_normalized ≠ none

lemma goodRows_upsert (st : Store) (v : Variant) (t : Nat) (hst : goodRows st)
    (hv : jsTruthy v.mpn = true) : goodRows (upsertVariant st v t) := by
  intro r hr
  by_cases hc : st.rows.any (fun rr => decide (rr.variant_id = v.variant_id)) = true
  · rw [upsert_eq_of_any st v t hc] at hr
    rcases List.mem_map.mp hr with ⟨r0, hr0, heq⟩
    by_cases h0 : r0.variant_id = v.variant_id
    · rw [if_pos h0] at heq
      subst heq
      exact normalizeMpn_isSome_of_truthy v.mpn hv
    · rw [if_neg h0] at heq
      subst heq
      exact hst r0 hr0
  · rw [upsert_eq_of_not_any st v t (Bool.eq_false_iff.mpr hc)] at hr
    rcases List.mem_append.mp hr with h1 | h1
    · exact hst r h1
    · have heq := List.mem_singleton.mp h1
      subst heq
      exact normalizeMpn_isSome_of_truthy v.mpn hv

lemma bulkUpsert_cons_true (st : Store) (v : Variant) (rest : List Variant) (now : Nat)
    (hv : jsTruthy v.mpn = true) :
    bulkUpsertVariants st (v :: rest) now =
      ((bulkUpsertVariants (upsertVariant st v now) rest now).1,
       (bulkUpsertVariants (upsertVariant st v now) rest now).2.1 + 1,
       (bulkUpsertVariants (upsertVariant st v now) rest now).2.2) := by
  simp [bulkUpsertVariants, hv]

lemma bulkUpsert_cons_false (st : Store) (v : Variant) (rest : List Variant) (now : Nat)
    (hv : jsTruthy v.mpn = false) :
    bulkUpsertVariants st (v :: rest) now =
      ((bulkUpsertVariants st rest now).1,
       (bulkUpsertVariants st rest now).2.1,
       (bulkUpsertVariants st rest now).2.2 + 1) := by
  simp [bulkUpsertVariants, hv]

lemma goodRows_bulkUpsert (vs : List Variant) :
    ∀ (st : Store) (t : Nat), goodRows st → goodRows (bulkUpsertVariants st vs t).1 := by
  induction vs with
  | nil => intro st t hst; exact hst
  | cons v rest ih =>
    intro st t hst
    by_cases hv : jsTruthy v.mpn = true
    · rw [bulkUpsert_cons_true st v rest t hv]
      exact ih _ t (goodRows_upsert st v t hst hv)
    · rw [bulkUpsert_cons_false st v rest t (Bool.eq_false_iff.mpr hv)]
      exact ih _ t hst

lemma goodRows_deleteVariant (st : Store) (vid : String) (hst : goodRows st) :
    goodRows (deleteVariant st vid).1 := by
  intro r hr
  simp only [deleteVariant] at hr
  exact hst r (List.mem_filter.mp hr).1

lemma goodRows_deleteProduct (st : Store) (pid : String) (hst : goodRows st) :
    goodRows (deleteProductVariants st pid).1 := by
  intro r hr
  simp only [deleteProductVariants] at hr
  exact hst r (List.mem_filter.mp hr).1

lemma goodRows_processLoop (p : WebhookProduct) (fails : String → Bool) (now : Nat)
    (vs : List PVariant) :
    ∀ (st : Store), goodRows st → goodRows (processVariantsLoop p fails now vs st) := by
  induction vs with
  | nil => intro st hst; exact hst
  | cons v rest ih =>
    intro st hst
    simp only [processVariantsLoop]
    by_cases hf : fails v.id = true
    · rw [if_pos hf]
      exact hst
    · rw [if_neg hf]
      by_cases hv : jsTruthy v.mpn = true
      · rw [if_pos hv]
        exact ih _ (goodRows_upsert st (webhookVariantRecord p v) now hst hv)
      · rw [if_neg hv]
        exact ih _ (goodRows_deleteVariant st v.id hst)

/-- C2 counterexample: a variant whose raw mpn is the punctuation-only
string `"-"` passes the write guards (they test the raw attribute's JS
truthiness, not the normalized key) and is inserted with an empty-string
canonical key, refuting the claim that such a record is never stored. -/
theorem engine_stores_empty_key_cx :
    ¬ (∀ r ∈ (applyWriteOps emptyStore [WriteOp.syncPage [exSVariantBad] 0]).rows,
        r.mpn_normalized ≠ some "") := by decide

/-- C2 (amended): after any sequence of the engine's write operations
(paginated-sync page upserts, webhook update/delete ingestion, clear) from
the empty store, no stored record has an absent (null) canonical key — every
insertion path guards on the raw attribute, which makes the recomputed key
present.  A raw attribute of punctuation/whitespace only does get stored,
with an empty-string canonical key. -/
theorem engine_writes_no_null_keys (ops : List WriteOp) :
    ∀ r ∈ (applyWriteOps emptyStore ops).rows, r.mpn_normalized ≠ none := by
  suffices h : ∀ (st : Store), goodRows st → goodRows (applyWriteOps st ops) from
    h emptyStore (fun r hr => absurd hr (List.not_mem_nil r))
  induction ops with
  | nil => intro st hst; exact hst
  | cons op rest ih =>
    intro st hst
    refine ih _ ?_
    cases op with
    | syncPage vs now => exact goodRows_bulkUpsert _ st now hst
    | webhookUpdate p fetched fails now =>
      cases fetched with
      | error e => exact hst
      | ok vs => exact goodRows_processLoop p fails now vs st hst
    | webhookDelete pid => exact goodRows_deleteProduct st _ hst
    | clearAll => intro r hr; exact absurd hr (List.not_mem_nil r)

/-- C2 witness: the row inserted by a sync page carrying the example variant
has a present canonical key. -/
theorem engine_writes_no_null_keys_witness :
    (newRow 1 (transformVariant exSVariant) 0).mpn_normalized ≠ none :=
  engine_writes_no_null_keys [WriteOp.syncPage [exSVariant] 0]
    (newRow 1 (transformVariant exSVariant) 0) (by decide)

lemma bulkUpsert_indexed_count (vs : List Variant) :
    ∀ (st : Store) (now : Nat),
      (bulkUpsertVariants st vs now).2.1 = vs.countP (fun v => jsTruthy v.mpn) := by
  induction vs with
  | nil => intro st now; rfl
  | cons v rest ih =>
    intro st now
    rw [List.countP_cons]
    by_cases hv : jsTruthy v.mpn = true
    · rw [bulkUpsert_cons_true st v rest now hv]
      simp [hv, ih]
    · have hvf := Bool.eq_false_iff.mpr hv
      rw [bulkUpsert_cons_false st v rest now hvf]
      simp [hvf, ih]

lemma completeSyncJob_mem (jobs : List SyncJob) (jobId : Nat) (status : String)
    (iv : Nat) (em : Option String) (now : Nat) :
    ∀ j ∈ completeSyncJob jobs jobId status iv em now, j.id = jobId →
      j.status = status ∧ j.indexed_variants = iv ∧ j.error_message = em ∧
      j.completed_at = some now := by
  intro j hj hid
  unfold completeSyncJob at hj
  rcases List.mem_map.mp hj with ⟨j0, hj0, heq⟩
  by_cases h0 : j0.id = jobId
  · rw [if_pos h0] at heq
    subst heq
    exact ⟨rfl, rfl, rfl, rfl⟩
  · rw [if_neg h0] at heq
    subst heq
    exact absurd hid h0

lemma syncLoop_failure (jobId now : Nat) (msg : String)
    (rest : List (Except String (List SVariant))) :
    ∀ (good : List (List SVariant)) (p i : Nat) (db : AppDb),
      (syncLoop jobId now (good.map Except.ok ++ Except.error msg :: rest) p i db).1 =
        Except.error msg ∧
      ∀ j ∈ (syncLoop jobId now (good.map Except.ok ++ Except.error msg :: rest) p i db).2.jobs,
        j.id = jobId → j.status = "failed" ∧ j.indexed_variants = i + goodPagesIndexed good ∧
          j.error_message = some msg ∧ j.completed_at = some now := by
  intro good
  induction good with
  | nil =>
    intro p i db
    refine ⟨rfl, ?_⟩
    intro j hj hid
    obtain ⟨a, b, c, d⟩ :=
      completeSyncJob_mem db.jobs jobId "failed" i (some msg) now j hj hid
    exact ⟨a, b, c, d⟩
  | cons vs good' ih =>
    intro p i db
    have hstep : syncLoop jobId now ((vs :: good').map Except.ok ++ Except.error msg :: rest)
        p i db =
        syncLoop jobId now (good'.map Except.ok ++ Except.error msg :: rest)
          (p + vs.length) (i + (bulkUpsertVariants db.store (vs.map transformVariant) now).2.1)
          { store := (bulkUpsertVariants db.store (vs.map transformVariant) now).1,
            jobs := updateSyncJobProgress db.jobs jobId (p + vs.length)
              (i + (bulkUpsertVariants db.store (vs.map transformVariant) now).2.1) } := rfl
    rw [hstep]
    have h := ih (p + vs.length)
      (i + (bulkUpsertVariants db.store (vs.map transformVariant) now).2.1)
      { store := (bulkUpsertVariants db.store (vs.map transformVariant) now).1,
        jobs := updateSyncJobProgress db.jobs jobId (p + vs.length)
          (i + (bulkUpsertVariants db.store (vs.map transformVariant) now).2.1) }
    refine ⟨h.1, ?_⟩
    intro j hj hid
    obtain ⟨a, b, c, d⟩ := h.2 j hj hid
    refine ⟨a, ?_, c, d⟩
    rw [b]
    have hcount : (bulkUpsertVariants db.store (vs.map transformVariant) now).2.1 =
        vs.countP (fun sv => jsTruthy sv.mpn) := by
      rw [bulkUpsert_indexed_count, List.countP_map]
      rfl
    have hgpi : goodPagesIndexed (vs :: good') =
        vs.countP (fun sv => jsTruthy sv.mpn) + goodPagesIndexed good' := by
      unfold goodPagesIndexed
      rw [List.map_cons, List.sum_cons]
    rw [hcount, hgpi]
    omega

/-- C5: when the paginated full sync hits a fetch/transform failure after a
run of successful pages, the failure is propagated to the caller as an
error, and the job row is finalized with status 'failed', the failure
message as its error detail, its completion timestamp set, and
`indexed_variants` equal to exactly the count accumulated over the
successful pages before the failure. -/
theorem runFullSync_failure (db : AppDb) (jobId now : Nat) (good : List (List SVariant))
    (msg : String) (rest : List (Except String (List SVariant))) :
    (runFullSync jobId (good.map Except.ok ++ Except.error msg :: rest) now db).1 =
      Except.error msg ∧
    ∀ j ∈ (runFullSync jobId (good.map Except.ok ++ Except.error msg :: rest) now db).2.jobs,
      j.id = jobId → j.status = "failed" ∧ j.indexed_variants = goodPagesIndexed good ∧
        j.error_message = some msg ∧ j.completed_at = some now := by
  have h := syncLoop_failure jobId now msg rest good 0 0
    { db with store := (clearIndex db.store).1 }
  refine ⟨h.1, ?_⟩
  intro j hj hid
  obtain ⟨a, b, c, d⟩ := h.2 j hj hid
  exact ⟨a, by simpa using b, c, d⟩

/-- C5 witness: a five-page scenario failing on page 3 (two successful
one-variant pages, then a failure, then a remaining page) leaves the job
failed with `indexed_variants = 2` — neither zero nor the eventual total of
three — and propagates the error. -/
theorem runFullSync_failure_witness :
    (runFullSync 1 ([[exSVariant], [exSVariant2]].map Except.ok ++
        Except.error "boom" :: [Except.ok [exSVariant3]]) 9 exAppDb).1 =
      Except.error "boom" ∧
    exFailedJob.status = "failed" ∧
    exFailedJob.indexed_variants = goodPagesIndexed [[exSVariant], [exSVariant2]] ∧
    exFailedJob.error_message = some "boom" ∧ exFailedJob.completed_at = some 9 :=
  ⟨(runFullSync_failure exAppDb 1 9 [[exSVariant], [exSVariant2]] "boom"
      [Except.ok [exSVariant3]]).1,
   (runFullSync_failure exAppDb 1 9 [[exSVariant], [exSVariant2]] "boom"
      [Except.ok [exSVariant3]]).2 exFailedJob (by decide) (by decide)⟩

/-- C6 counterexample: in a two-variant update notification where only the
first variant's database write fails, the second variant — whose own write
would succeed and whose mpn is present — is never upserted: the single
try/catch wraps the whole loop, so the failure aborts the remaining
records.  The claim that every other record is still processed is false. -/
theorem processProductUpdate_aborts_cx :
    jsTruthy exPVariant2.mpn = true ∧ exFails exPVariant2.id = false ∧
    ¬ (∃ r ∈ (processProductUpdate exWebhookProduct (Except.ok [exPVariant1, exPVariant2])
        exFails 0 emptyStore).rows, r.variant_id = exPVariant2.id) := by decide

lemma processLoop_abort (p : WebhookProduct) (fails : String → Bool) (now : Nat)
    (bad : PVariant) (post : List PVariant) (hbad : fails bad.id = true) :
    ∀ (pre : List PVariant), (∀ v ∈ pre, fails v.id = false) →
      ∀ (st : Store), processVariantsLoop p fails now (pre ++ bad :: post) st =
        pre.foldl (applyWebhookVariant p now) st := by
  intro pre
  induction pre with
  | nil =>
    intro _ st
    simp only [List.nil_append, processVariantsLoop, List.foldl_nil]
    rw [if_pos hbad]
  | cons v pre' ih =>
    intro hpre st
    have hv : fails v.id = false := hpre v (List.mem_cons_self v pre')
    simp only [List.cons_append, processVariantsLoop, List.foldl_cons]
    rw [if_neg (by simp [hv])]
    have hih := ih (fun w hw => hpre w (List.mem_cons_of_mem v hw))
    by_cases hm : jsTruthy v.mpn = true
    · rw [if_pos hm,
        show applyWebhookVariant p now st v = upsertVariant st (webhookVariantRecord p v) now
          from by simp [applyWebhookVariant, hm]]
      exact hih _
    · rw [if_neg hm,
        show applyWebhookVariant p now st v = (deleteVariant st v.id).1
          from by simp [applyWebhookVariant, Bool.eq_false_iff.mpr hm]]
      exact hih _

/-- C6 (amended): when the write for one record of an update notification
fails, the records fetched before it have been applied (upserted or
deleted), and the failing record together with every record after it is
left unprocessed — the loop aborts at the first failure, whose error the
handler swallows. -/
theorem processProductUpdate_abort_amended (p : WebhookProduct) (fails : String → Bool)
    (now : Nat) (pre post : List PVariant) (bad : PVariant) (st : Store)
    (hpre : ∀ v ∈ pre, fails v.id = false) (hbad : fails bad.id = true) :
    processProductUpdate p (Except.ok (pre ++ bad :: post)) fails now st =
      pre.foldl (applyWebhookVariant p now) st :=
  processLoop_abort p fails now bad post hbad pre hpre st

/-- C6 witness: with the non-failing variant delivered before the failing
one, exactly the leading variant is applied. -/
theorem processProductUpdate_abort_witness :
    processProductUpdate exWebhookProduct (Except.ok ([exPVariant2] ++ exPVariant1 :: []))
      exFails 0 emptyStore =
      [exPVariant2].foldl (applyWebhookVariant exWebhookProduct 0) emptyStore :=
  processProductUpdate_abort_amended exWebhookProduct exFails 0 [exPVariant2] []
    exPVariant1 emptyStore (by decide) (by decide)

lemma filterBulk_spec (products : List (String × BProduct)) (vs : List BVariant) :
    filterBulkVariants products vs =
      (vs.filterMap (fun v => match parentOf products v with
        | none => none
        | some p => if jsTruthy v.mpn then some (mkFilteredVariant v p) else none),
       vs.countP (fun v => (parentOf products v).isSome && !(jsTruthy v.mpn))) := by
  induction vs with
  | nil => rfl
  | cons v rest ih =>
    simp only [filterBulkVariants, List.filterMap_cons, List.countP_cons, ih]
    cases hp : parentOf products v with
    | none => simp [hp]
    | some p =>
      by_cases hm : jsTruthy v.mpn = true
      · simp [hp, hm]
      · simp [hp, Bool.eq_false_iff.mpr hm]

/-- C7 (amended): parsing a bulk-export result never fails; the variants
returned for indexing are exactly the non-orphan variants with a truthy
mpn, in delivery order; and the skipped counter counts exactly the
non-orphan variants without an mpn.  Orphan variants (parent absent from
the same result set) are excluded from indexing but are NOT counted as
skipped — they are dropped silently. -/
theorem downloadAndParse_orphans (lines : List BulkLine) :
    downloadAndParseBulkResults lines =
      ((parseBulkLines lines [] []).2.filterMap (fun v =>
          match parentOf (parseBulkLines lines [] []).1 v with
          | none => none
          | some p => if jsTruthy v.mpn then some (mkFilteredVariant v p) else none),
       (parseBulkLines lines [] []).2.countP (fun v =>
          (parentOf (parseBulkLines lines [] []).1 v).isSome && !(jsTruthy v.mpn))) := by
  unfold downloadAndParseBulkResults
  exact filterBulk_spec _ _

/-- C7 counterexample: a result set with one product and one orphan variant
that carries an MPN yields no indexed variants — the orphan is excluded —
but the skipped counter is 0, not the 1 that counting the orphan as
skipped would require. -/
theorem downloadAndParse_orphan_not_counted_cx :
    (downloadAndParseBulkResults [exProductLine, exOrphanLine]).1 = [] ∧
    ¬ ((downloadAndParseBulkResults [exProductLine, exOrphanLine]).2 = 1) := by decide

/-- C8: a webhook delivery whose HMAC verification fails is answered 401
and has no side effects: the index store is returned unchanged and no
upstream fetch is issued, for both the products-update and the
products-delete handlers. -/
theorem webhook_unverified_no_side_effects (p : WebhookProduct)
    (fetched : Except String (List PVariant)) (fails : String → Bool) (now : Nat)
    (st : Store) (productId : String) :
    productsUpdateWebhook false p fetched fails now st =
      { status := 401, store := st, fetches := 0 } ∧
    productsDeleteWebhook false productId st =
      { status := 401, store := st, fetches := 0 } :=
  ⟨rfl, rfl⟩

end MpnSearch
